import Mathlib

/-!
Verification development for the burn.rate diet-tracking application
(source files: burn.rate.py, modules/data_handler.py, modules/ui_components.py,
modules/utils.py).

The Python source is shallowly embedded: pandas DataFrames become lists of
records, Python dicts become association lists (`List (String × α)`, insertion
ordered like Python dicts), floats become exact rationals (`ℚ`), Python `int()`
truncation and `round()` banker's rounding are modelled exactly on `ℚ`, and the
string operations used by the code (`str.lower`, `str.strip`, `str.split`,
regular-expression character filtering) are modelled on the underlying
character lists with ASCII semantics.  The fuzzywuzzy scorers
(`fuzz.token_sort_ratio`, `fuzz.partial_ratio`) are modelled after the
pure-Python fuzzywuzzy 0.18 implementation backed by `difflib.SequenceMatcher`
(the dependency-free default), with float score ratios represented exactly as
integer fractions.
-/

/-! ### Python numeric primitives -/

/-- Python `int(x)` applied to a float: truncation toward zero. -/
def pyInt (x : ℚ) : ℤ :=
  if x < 0 then ⌈x⌉ else ⌊x⌋

/-- Python 3 `round(x)`: round half to even (banker's rounding), modelled on
exact rationals. -/
def pyRound (x : ℚ) : ℤ :=
  let f := ⌊x⌋
  let frac := x - f
  if frac < 1/2 then f
  else if 1/2 < frac then f + 1
  else if f % 2 = 0 then f else f + 1

/-- Python 3 `round(x, 1)`: round to one decimal place (half to even). -/
def pyRound1 (x : ℚ) : ℚ :=
  (pyRound (10 * x) : ℚ) / 10

/-! ### Python string primitives (ASCII model)

The application only ever compares and filters the ASCII food names and query
strings, so `str.lower`, `str.strip`, `str.split` and the regex character
classes are modelled at ASCII level over the string's character list. -/

/-- Characters treated as whitespace by Python `str.strip`/`str.split` and the
regex class `\s` (ASCII fragment). -/
def isPySpace (c : Char) : Bool :=
  c = ' ' || c = '\t' || c = '\n' || c = '\x0d' || c = '\x0b' || c = '\x0c'

/-- The regex class `\w` (ASCII fragment): letters, digits and underscore. -/
def isWordChar (c : Char) : Bool :=
  c.isAlphanum || c = '_'

/-- Python `str.lower` (ASCII model): lowercase every character. -/
def pyLower (s : String) : String :=
  (s.data.map Char.toLower).asString

/-- Python `str.strip`: drop leading and trailing whitespace. -/
def pyStrip (s : String) : String :=
  (((s.data.dropWhile isPySpace).reverse.dropWhile isPySpace).reverse).asString

/-- Python `str.split()` with no argument: split on runs of whitespace,
discarding empty fragments. -/
def pySplitAux : List Char → List Char → List (List Char)
  | acc, [] => if acc.isEmpty then [] else [acc.reverse]
  | acc, c :: cs =>
    if isPySpace c then
      if acc.isEmpty then pySplitAux [] cs else acc.reverse :: pySplitAux [] cs
    else pySplitAux (c :: acc) cs

/-- Python `s.split()` on a character list. -/
def pySplit (s : List Char) : List (List Char) :=
  pySplitAux [] s

/-! ### Data model

`FoodRecord` is one row of the catalog DataFrame built by
`load_food_database` (FoodID, FoodName, Calories per 100 g as an integer,
Protein/Fat/Carbs per 100 g).  `LogEntry` is one dict appended to the food log
by `add_food_to_log`. -/

/-- One row of the food catalog (`food_db`).  `Calories` is integral in the
source (`round().astype(int)`); the other macros are floats, modelled as `ℚ`.
The numeric `FoodID` is modelled already stringified. -/
structure FoodRecord where
  foodId : String
  foodName : String
  calories : ℤ
  protein : ℚ
  fat : ℚ
  carbs : ℚ
deriving DecidableEq

/-- One food-log entry dict as built by `add_food_to_log`
(ui_components.py lines 264-277): snapshot of the per-100 g values plus the
computed totals.  `time_added` is display-only. -/
structure LogEntry where
  food_id : String
  food_name : String
  weight_g : ℤ
  calories : ℤ
  protein : ℚ
  fat : ℚ
  carbs : ℚ
  total_calories : ℤ
  total_protein : ℚ
  total_fat : ℚ
  total_carbs : ℚ
  time_added : String
deriving DecidableEq

/-- The four per-100 g macro values fed to `calculate_nutrition`. -/
structure Macros where
  calories : ℚ
  protein : ℚ
  fat : ℚ
  carbs : ℚ
deriving DecidableEq

/-- `NutritionCalculator.calculate_nutrition` (utils.py lines 9-15) and the
identical `calculate_nutrition` in burn.rate.py: pure linear scaling of the
per-100 g values by `weight / 100`. -/
def calculate_nutrition (base : Macros) (weight_in_grams : ℚ) : Macros :=
  let factor := weight_in_grams / 100
  ⟨base.calories * factor, base.protein * factor, base.fat * factor,
    base.carbs * factor⟩

/-- The log-entry dict built by `add_food_to_log` (ui_components.py lines
264-277): per-100 g snapshot plus totals, where `total_calories` is
`int(...)` (truncation) and the other totals are `round(..., 1)`. -/
def mkLogEntry (food : FoodRecord) (weight : ℤ) (timeAdded : String) : LogEntry :=
  let nutrition := calculate_nutrition
    ⟨(food.calories : ℚ), food.protein, food.fat, food.carbs⟩ (weight : ℚ)
  { food_id := food.foodId
    food_name := food.foodName
    weight_g := weight
    calories := food.calories
    protein := food.protein
    fat := food.fat
    carbs := food.carbs
    total_calories := pyInt nutrition.calories
    total_protein := pyRound1 nutrition.protein
    total_fat := pyRound1 nutrition.fat
    total_carbs := pyRound1 nutrition.carbs
    time_added := timeAdded }

/-- The in-place recomputation performed by `update_food_entry`
(ui_components.py lines 294-308): all four totals are recomputed from the
entry's per-100 g snapshot and the new weight, and `weight_g` is replaced. -/
def recalcEntry (entry : LogEntry) (new_weight : ℤ) : LogEntry :=
  let nutrition := calculate_nutrition
    ⟨(entry.calories : ℚ), entry.protein, entry.fat, entry.carbs⟩ (new_weight : ℚ)
  { entry with
    weight_g := new_weight
    total_calories := pyInt nutrition.calories
    total_protein := pyRound1 nutrition.protein
    total_fat := pyRound1 nutrition.fat
    total_carbs := pyRound1 nutrition.carbs }

/-! ### Text normalizer -/

/-- `normalize_text` (burn.rate.py lines 197-201):
`re.sub(r'[^\w\s]', '', str(text).lower())`, with `pd.isna` input modelled as
`none`.  Lowercases, then keeps exactly the word characters and whitespace. -/
def normalize_text (text : Option String) : String :=
  match text with
  | none => ""
  | some s => ((s.data.map Char.toLower).filter
      (fun c => isWordChar c || isPySpace c)).asString

/-! ### Helper lemmas about `Char.toLower` -/

/-- Valid code points survive the `Char.ofNat` round trip. -/
theorem char_toNat_ofNat (n : ℕ) (h : n.isValidChar) :
    (Char.ofNat n).toNat = n := by
  unfold Char.ofNat
  rw [dif_pos h]
  rfl

/-- ASCII lowercasing is idempotent. -/
theorem toLower_idem (c : Char) : c.toLower.toLower = c.toLower := by
  unfold Char.toLower
  by_cases h : c.toNat ≥ 65 ∧ c.toNat ≤ 90
  · rw [if_pos h]
    have hv : (c.toNat + 32).isValidChar := Or.inl (by omega)
    have ht : (Char.ofNat (c.toNat + 32)).toNat = c.toNat + 32 :=
      char_toNat_ofNat _ hv
    rw [ht, if_neg (by omega)]
  · rw [if_neg h, if_neg h]

/-! ### fuzzywuzzy scorers (pure-Python difflib backend)

`search_foods` scores candidates with `fuzz.token_sort_ratio` and
`fuzz.partial_ratio` through `process.extract`.  Without the optional
python-Levenshtein accelerator, fuzzywuzzy 0.18 computes both from
`difflib.SequenceMatcher` (no junk heuristics apply at these lengths):
`ratio = int(round(100 * 2*M/T))` where `M` is the total size of the matching
blocks and `T` the sum of the lengths.  We model the float rounding
`int(round(x))` as exact round-half-to-even on the fraction. -/

/-- Round `num / den` half to even (`int(round(x))` on the exact fraction). -/
def intr (num den : ℕ) : ℕ :=
  let q := num / den
  let r := num % den
  if 2 * r < den then q
  else if den < 2 * r then q + 1
  else if q % 2 = 0 then q else q + 1

/-- Length of the common prefix of two character lists. -/
def commonLen : List Char → List Char → ℕ
  | a :: as, b :: bs => if a = b then commonLen as bs + 1 else 0
  | _, _ => 0

/-- The matching length starting at positions `i` (in `a`) and `j` (in `b`),
clipped to the ranges ending at `ahi`/`bhi`. -/
def matchLenAt (a b : List Char) (ahi bhi i j : ℕ) : ℕ :=
  commonLen ((a.drop i).take (ahi - i)) ((b.drop j).take (bhi - j))

/-- `difflib.SequenceMatcher.find_longest_match` on ranges `[alo, ahi)` and
`[blo, bhi)`: the longest matching block, and among the longest the one with
the smallest start in `a`, then the smallest start in `b`.  We enumerate the
candidate starts in that preference order and keep the first strict maximum. -/
def findLongestMatch (a b : List Char) (alo ahi blo bhi : ℕ) : ℕ × ℕ × ℕ :=
  ((List.range' alo (ahi - alo)).flatMap (fun i =>
      (List.range' blo (bhi - blo)).map (fun j =>
        (i, j, matchLenAt a b ahi bhi i j)))).foldl
    (fun best cand => if best.2.2 < cand.2.2 then cand else best)
    (alo, blo, 0)

/-- The recursion of `difflib.SequenceMatcher.get_matching_blocks`: recurse on
the ranges left and right of the longest match.  `fuel` dominates the
recursion depth (each side of a non-trivial split is strictly smaller). -/
def matchingBlocksAux (a b : List Char) :
    ℕ → ℕ → ℕ → ℕ → ℕ → List (ℕ × ℕ × ℕ)
  | 0, _, _, _, _ => []
  | fuel + 1, alo, ahi, blo, bhi =>
    let ijk := findLongestMatch a b alo ahi blo bhi
    if ijk.2.2 = 0 then []
    else
      matchingBlocksAux a b fuel alo ijk.1 blo ijk.2.1 ++
        [ijk] ++
        matchingBlocksAux a b fuel (ijk.1 + ijk.2.2) ahi (ijk.2.1 + ijk.2.2) bhi

/-- `difflib.SequenceMatcher(None, a, b).get_matching_blocks()`, including the
terminating sentinel block `(len a, len b, 0)`. -/
def matchingBlocks (a b : List Char) : List (ℕ × ℕ × ℕ) :=
  matchingBlocksAux a b (a.length + b.length + 1) 0 a.length 0 b.length ++
    [(a.length, b.length, 0)]

/-- Total number of matched characters reported by `get_matching_blocks`. -/
def totalMatched (a b : List Char) : ℕ :=
  (matchingBlocks a b).foldl (fun acc blk => acc + blk.2.2) 0

/-- `fuzz.ratio(a, b)` via difflib: `int(round(100 * 2*M/T))`, and `1.0` when
both strings are empty. -/
def fuzzRatio (a b : List Char) : ℕ :=
  let T := a.length + b.length
  if T = 0 then 100 else intr (200 * totalMatched a b) T

/-- fuzzywuzzy `utils.full_process`: replace every non-word character
(regex `\W`) by a space, lowercase, and strip. -/
def fullProcess (s : String) : List Char :=
  (pyStrip (((s.data.map (fun c => if isWordChar c then c else ' ')).map
      Char.toLower).asString)).data

/-- Code-point lexicographic order on character lists (Python string `<=`). -/
def lexLe : List Char → List Char → Bool
  | [], _ => true
  | _ :: _, [] => false
  | a :: as, b :: bs =>
    if a.toNat < b.toNat then true
    else if b.toNat < a.toNat then false
    else lexLe as bs

/-- Python `sorted` on token lists (insertion into sorted position; stability
is irrelevant because equal tokens are identical). -/
def insertTok (t : List Char) : List (List Char) → List (List Char)
  | [] => [t]
  | u :: us => if lexLe t u then t :: u :: us else u :: insertTok t us

/-- Sort tokens into Python `sorted` order. -/
def sortToks : List (List Char) → List (List Char)
  | [] => []
  | t :: ts => insertTok t (sortToks ts)

/-- fuzzywuzzy `_process_and_sort`: split into tokens, sort them, re-join with
single spaces (the final `strip` is a no-op on this shape). -/
def processAndSort (s : String) : List Char :=
  match (sortToks (pySplit (fullProcess s))).map List.asString with
  | [] => []
  | t :: ts => (ts.foldl (fun acc u => acc ++ " " ++ u) t).data

/-- `fuzz.token_sort_ratio(query, choice)` as invoked by `process.extract`
(data_handler.py lines 103-108): `extract` pre-processes both strings with
`full_process` and the scorer then compares the token-sorted forms. -/
def tokenSortScore (query choice : String) : ℕ :=
  fuzzRatio (processAndSort query) (processAndSort choice)

/-- `fuzz.partial_ratio(s1, s2)` (fuzzywuzzy 0.18): align the shorter string
against windows of the longer one chosen from the matching blocks, take the
best difflib ratio among the windows; any window ratio above 0.995 yields 100
immediately.  Window ratios are represented as exact fractions
`(2*M, len shorter + len window)`, with the empty/empty convention `1.0`. -/
def partRatio (s1 s2 : List Char) : ℕ :=
  let p := if s1.length ≤ s2.length then (s1, s2) else (s2, s1)
  let shorter := p.1
  let longer := p.2
  let scores := (matchingBlocks shorter longer).map (fun blk =>
    let longStart := blk.2.1 - blk.1
    let window := (longer.drop longStart).take shorter.length
    let T := shorter.length + window.length
    if T = 0 then (1, 1) else (2 * totalMatched shorter window, T))
  if scores.any (fun sc => 199 * sc.2 < 200 * sc.1) then 100
  else
    let best := scores.foldl
      (fun acc sc => if acc.1 * sc.2 < sc.1 * acc.2 then sc else acc) (0, 1)
    intr (100 * best.1) best.2

/-- `fuzz.partial_ratio` as invoked by `process.extract` (data_handler.py
lines 136-141): the default processor applies `full_process` to the query and
to every choice before scoring. -/
def partScore (query choice : String) : ℕ :=
  partRatio (fullProcess query) (fullProcess choice)

/-! ### The search pipeline (`search_foods`, data_handler.py lines 82-168)

`process.extract(query, names, limit, scorer)` is `heapq.nlargest(limit, ...)`
over `(choice, score)` pairs, i.e. a stable descending sort by score truncated
to `limit`.  `DataFrame.sort_values(by='match_score', ascending=False)` with
the default `kind='quicksort'` goes through pandas `nargsort`: an ascending
argsort of the scores followed by a reversal of the whole index order; for the
frame sizes at hand numpy's introsort degenerates to a stable insertion sort,
so the model is the reverse of a stable ascending sort (equal scores therefore
come out in reverse frame order).  Both scorers are kept as parameters of the
embedding so that the tier structure can be stated for arbitrary scores; the
instantiation used by the source is with `tokenSortScore` and `partScore`. -/

/-- Ascending comparison of score-carrying pairs. -/
def scoreLE {α : Type} (x y : α × ℕ) : Prop := x.2 ≤ y.2

/-- Descending comparison of score-carrying pairs. -/
def scoreGE {α : Type} (x y : α × ℕ) : Prop := y.2 ≤ x.2

instance {α : Type} : DecidableRel (scoreLE (α := α)) :=
  fun x y => inferInstanceAs (Decidable (x.2 ≤ y.2))

instance {α : Type} : DecidableRel (scoreGE (α := α)) :=
  fun x y => inferInstanceAs (Decidable (y.2 ≤ x.2))

instance {α : Type} : IsTotal (α × ℕ) scoreLE :=
  ⟨fun a b => Nat.le_total a.2 b.2⟩

instance {α : Type} : IsTrans (α × ℕ) scoreLE :=
  ⟨fun _ _ _ h h2 => Nat.le_trans h h2⟩

instance {α : Type} : IsTotal (α × ℕ) scoreGE :=
  ⟨fun a b => Nat.le_total b.2 a.2⟩

instance {α : Type} : IsTrans (α × ℕ) scoreGE :=
  ⟨fun _ _ _ h h2 => Nat.le_trans h2 h⟩

/-- `process.extract(query, choices, limit=limit, scorer=scorer)`:
score every choice, order descending by score (stable, like
`heapq.nlargest`), and keep the best `limit`. -/
def extractFW (scorer : String → String → ℕ) (query : String)
    (choices : List String) (limit : ℕ) : List (String × ℕ) :=
  (List.insertionSort scoreGE (choices.map (fun c => (c, scorer query c)))).take
    limit

/-- pandas `sort_values(by='match_score', ascending=False, kind='quicksort')`
as performed through `nargsort`: stable ascending sort, then reverse. -/
def pandasSortDesc {α : Type} (l : List (α × ℕ)) : List (α × ℕ) :=
  (List.insertionSort scoreLE l).reverse

/-- The shared tail of tiers 2 and 3 (data_handler.py lines 113-132 and
146-165): restrict the catalog to the rows whose `FoodName` is among the good
matches, attach each row's score (first match in the list, default 0), sort
descending by score, and drop the score column. -/
def fuzzyTier (food_db : List FoodRecord) (good : List (String × ℕ)) :
    List FoodRecord :=
  let matched_names := good.map (fun m => m.1)
  let result := food_db.filter (fun r => matched_names.contains r.foodName)
  let scored := result.map (fun r =>
    (r, ((good.find? (fun m => m.1 == r.foodName)).map (fun m => m.2)).getD 0))
  (pandasSortDesc scored).map (fun p => p.1)

/-- `search_foods(query, food_db, limit)` (data_handler.py lines 82-168),
parameterised by the two fuzzy scorers (`ts` stands for
`fuzz.token_sort_ratio`, `pr` for `fuzz.partial_ratio`). -/
def search_foods (ts pr : String → String → ℕ) (query : String)
    (food_db : List FoodRecord) (limit : ℕ) : List FoodRecord :=
  if (pyStrip query).data.length < 2 then [] else
  let q := pyStrip (pyLower query)
  let exact_matches := food_db.filter (fun r => pyLower r.foodName == q)
  if ¬exact_matches.isEmpty then exact_matches else
  let food_names := food_db.map (fun r => r.foodName)
  let good_matches := (extractFW ts q food_names limit).filter
    (fun m => 60 ≤ m.2)
  if ¬good_matches.isEmpty then fuzzyTier food_db good_matches else
  let good_p_matches := (extractFW pr q food_names limit).filter
    (fun m => 75 ≤ m.2)
  if ¬good_p_matches.isEmpty then fuzzyTier food_db good_p_matches else []

/-! ### The daily log store

`st.session_state.food_logs` is a JSON-backed Python dict mapping date strings
to lists of entries.  Dicts are modelled as insertion-ordered association
lists: item assignment to an existing key replaces the value in place, a new
key is appended at the end. -/

/-- A Python dict with string keys, as an insertion-ordered association list. -/
abbrev PyDict (α : Type) : Type := List (String × α)

/-- Dict lookup `logs[d]` (as an `Option` to model `KeyError`). -/
def lookupLog {α : Type} (logs : PyDict α) (d : String) : Option α :=
  (logs.find? (fun p => p.1 == d)).map (fun p => p.2)

/-- Dict item assignment `logs[d] = v`: replace in place when the key exists,
append otherwise. -/
def setLog {α : Type} (logs : PyDict α) (d : String) (v : α) : PyDict α :=
  if logs.any (fun p => p.1 == d) then
    logs.map (fun p => if p.1 == d then (d, v) else p)
  else logs ++ [(d, v)]

/-- The food log: date string to ordered list of entries. -/
abbrev Logs : Type := PyDict (List LogEntry)

/-- `add_food_to_log` at the store level (ui_components.py line 279, with the
date key pre-initialised to `[]` by `render_overview_section` lines 21-22):
append the materialised entry to the date's list. -/
def add_food_to_log (logs : Logs) (date_str : String) (food : FoodRecord)
    (weight : ℤ) (timeAdded : String) : Logs :=
  match lookupLog logs date_str with
  | some entries => setLog logs date_str (entries ++ [mkLogEntry food weight timeAdded])
  | none => setLog logs date_str [mkLogEntry food weight timeAdded]

/-- `update_food_entry(date_str, index, new_weight)` (ui_components.py lines
288-317): recompute the entry in place from its per-100 g snapshot; any
lookup failure is caught and leaves the store unchanged (`none`). -/
def update_food_entry (logs : Logs) (date_str : String) (index : ℕ)
    (new_weight : ℤ) : Option Logs :=
  match lookupLog logs date_str with
  | none => none
  | some entries =>
    match entries[index]? with
    | none => none
    | some entry =>
      some (setLog logs date_str (entries.set index (recalcEntry entry new_weight)))

/-- `remove_food_entry(date_str, index)` (ui_components.py lines 319-335):
`pop(index)` the entry; a missing date or an out-of-range index raises, is
caught, and leaves the store unchanged (`none`).  Indices come from
`enumerate` and are modelled as naturals. -/
def remove_food_entry (logs : Logs) (date_str : String) (index : ℕ) :
    Option Logs :=
  match lookupLog logs date_str with
  | none => none
  | some entries =>
    if index < entries.length then
      some (setLog logs date_str (entries.eraseIdx index))
    else none

/-! ### Import / merge (`import_logs_from_uploaded_file`, utils.py lines 35-59) -/

/-- The merge loop of `import_logs_from_uploaded_file` (utils.py lines 48-55)
on a well-formed payload whose values are all entry lists: for each incoming
date in order, extend the existing list or insert the new date at the end. -/
def mergeImport (existing_logs : Logs) (imported_logs : PyDict (List LogEntry)) :
    Logs :=
  imported_logs.foldl
    (fun merged_logs p =>
      match lookupLog merged_logs p.1 with
      | some entries => setLog merged_logs p.1 (entries ++ p.2)
      | none => merged_logs ++ [p])
    existing_logs

/-- A JSON value stored under a date key of an import payload: either a list
of entries, or a non-iterable value (e.g. a number), on which `list.extend`
raises `TypeError`. -/
inductive JsonVal : Type where
  | list (entries : List LogEntry) : JsonVal
  | bad : JsonVal
deriving DecidableEq

/-- A parsed import payload: either not a dict at the top level, or a dict of
date keys with arbitrary JSON values. -/
inductive Payload : Type where
  | notDict : Payload
  | dict (items : PyDict JsonVal) : Payload

/-- View a store as a dict of JSON values (every value is an entry list). -/
def toJ (logs : Logs) : PyDict JsonVal :=
  logs.map (fun p => (p.1, JsonVal.list p.2))

/-- The merge loop of `import_logs_from_uploaded_file` over an arbitrary dict
payload, processed in order.  `merged_logs[date].extend(entries)` fails with
`TypeError` when `entries` is non-iterable and with `AttributeError` when the
stored value is not a list; the exception aborts the loop (`false`), keeping
the updates made so far. -/
def importRun : PyDict JsonVal → PyDict JsonVal → Bool × PyDict JsonVal
  | merged_logs, [] => (true, merged_logs)
  | merged_logs, (d, v) :: rest =>
    match lookupLog merged_logs d with
    | some (JsonVal.list entries) =>
      match v with
      | JsonVal.list es =>
        importRun (setLog merged_logs d (JsonVal.list (entries ++ es))) rest
      | JsonVal.bad => (false, merged_logs)
    | some JsonVal.bad => (false, merged_logs)
    | none => importRun (merged_logs ++ [(d, v)]) rest

/-- `import_logs_from_uploaded_file(uploaded_file, existing_logs)` (utils.py
lines 35-59), with the file already parsed into a `Payload`.  The result is
`(success, returned payload, state of the caller's existing store after the
call)`.  `merged_logs = existing_logs.copy()` is a shallow copy, so
`merged_logs[date].extend(...)` mutates the list aliased from
`existing_logs`; keys inserted during the loop touch only the copy.  The
caller's store is therefore the original keys re-read through the final
merged state. -/
def import_logs_from_uploaded_file (payload : Payload) (existing_logs : Logs) :
    Bool × PyDict JsonVal × Logs :=
  match payload with
  | Payload.notDict => (false, toJ existing_logs, existing_logs)
  | Payload.dict items =>
    let r := importRun (toJ existing_logs) items
    let existing_after := existing_logs.map (fun p =>
      (p.1, match lookupLog r.2 p.1 with
            | some (JsonVal.list es) => es
            | _ => p.2))
    (r.1, if r.1 then r.2 else toJ existing_after, existing_after)

/-! ### Log loading (`load_food_logs` / `validate_food_entry`,
data_handler.py lines 36-80)

Validation only checks key presence, so a raw JSON entry is modelled by the
list of its keys. -/

/-- The keys of one raw JSON log-entry object. -/
abbrev RawEntry : Type := List String

/-- `validate_food_entry(entry)` (data_handler.py lines 74-80): all four
required fields are present. -/
def validate_food_entry (entry : RawEntry) : Bool :=
  ["food_id", "food_name", "weight_g", "total_calories"].all
    (fun field => entry.contains field)

/-- The cleaning pass of `load_food_logs` (data_handler.py lines 46-51) on a
syntactically valid stored mapping: every date key is kept and its entry list
is filtered through `validate_food_entry`. -/
def load_food_logs (logs : PyDict (List RawEntry)) : PyDict (List RawEntry) :=
  logs.map (fun p => (p.1, p.2.filter validate_food_entry))

/-! ### Dictionary lemmas -/

section DictLemmas

variable {α β : Type}

/-- Key-preserving maps commute with `find?` by key. -/
theorem find?_map_key (g : String × α → β) (logs : PyDict α) (d : String) :
    (logs.map (fun p => (p.1, g p))).find? (fun q => q.1 == d) =
      (logs.find? (fun p => p.1 == d)).map (fun p => (p.1, g p)) := by
  induction logs with
  | nil => rfl
  | cons p ps ih =>
    by_cases hp : p.1 = d
    · have hb : (p.1 == d) = true := beq_iff_eq.mpr hp
      simp only [List.map_cons, List.find?, hb, Option.map_some']
    · have hb : (p.1 == d) = false := beq_false_of_ne hp
      simp only [List.map_cons, List.find?, hb]
      exact ih

/-- Key-preserving maps commute with `lookupLog`. -/
theorem lookupLog_map_key (g : String × α → β) (logs : PyDict α) (d : String) :
    lookupLog (logs.map (fun p => (p.1, g p))) d =
      (lookupLog logs d).map (fun v => g (d, v)) := by
  unfold lookupLog
  rw [find?_map_key]
  cases hf : logs.find? (fun p => p.1 == d) with
  | none => rfl
  | some p =>
    have hd : p.1 = d := by simpa using List.find?_some hf
    cases p
    simp_all

/-- Replacing the value at `d` makes `d` find the new pair. -/
theorem find?_replace_self (logs : PyDict α) (d : String) (v : α)
    (hmem : logs.any (fun p => p.1 == d) = true) :
    (logs.map (fun p => if p.1 == d then (d, v) else p)).find?
      (fun q => q.1 == d) = some (d, v) := by
  induction logs with
  | nil => simp at hmem
  | cons p ps ih =>
    by_cases hp : p.1 = d
    · have hb : (p.1 == d) = true := beq_iff_eq.mpr hp
      simp only [List.map_cons, List.find?, hb, if_true, beq_self_eq_true]
    · have hb : (p.1 == d) = false := beq_false_of_ne hp
      have hmem' : ps.any (fun p => p.1 == d) = true := by
        simpa [List.any_cons, hb] using hmem
      simp only [List.map_cons, List.find?, hb, Bool.false_eq_true, if_false]
      exact ih hmem'

/-- Replacing the value at `d` leaves other keys untouched. -/
theorem find?_replace_ne (logs : PyDict α) (d d' : String) (v : α)
    (hne : d' ≠ d) :
    (logs.map (fun p => if p.1 == d then (d, v) else p)).find?
      (fun q => q.1 == d') = logs.find? (fun q => q.1 == d') := by
  induction logs with
  | nil => rfl
  | cons p ps ih =>
    by_cases hpd : p.1 = d
    · have hb : (p.1 == d) = true := beq_iff_eq.mpr hpd
      have h1 : (d == d') = false := beq_false_of_ne (Ne.symm hne)
      have h2 : (p.1 == d') = false := by rw [hpd]; exact h1
      simp only [List.map_cons, List.find?, hb, if_true, h1, h2]
      exact ih
    · have hb : (p.1 == d) = false := beq_false_of_ne hpd
      simp only [List.map_cons, List.find?, hb, Bool.false_eq_true, if_false]
      by_cases hq : p.1 = d'
      · have hq' : (p.1 == d') = true := beq_iff_eq.mpr hq
        simp only [hq']
      · have hq' : (p.1 == d') = false := beq_false_of_ne hq
        simp only [hq']
        exact ih

/-- Looking up the key just set returns the new value. -/
theorem lookupLog_set_self (logs : PyDict α) (d : String) (v : α) :
    lookupLog (setLog logs d v) d = some v := by
  unfold setLog
  by_cases hmem : logs.any (fun p => p.1 == d)
  · rw [if_pos hmem]
    unfold lookupLog
    rw [find?_replace_self logs d v hmem]
    rfl
  · rw [if_neg hmem]
    unfold lookupLog
    rw [List.find?_append]
    have hnone : logs.find? (fun p => p.1 == d) = none := by
      rw [List.find?_eq_none]
      intro p hp hb
      exact hmem (List.any_of_mem hp hb)
    simp [hnone, List.find?]

/-- Setting one key does not change the value found at another key. -/
theorem lookupLog_set_ne (logs : PyDict α) (d d' : String) (v : α)
    (hne : d' ≠ d) : lookupLog (setLog logs d v) d' = lookupLog logs d' := by
  unfold setLog
  by_cases hmem : logs.any (fun p => p.1 == d)
  · rw [if_pos hmem]
    unfold lookupLog
    rw [find?_replace_ne logs d d' v hne]
  · rw [if_neg hmem]
    unfold lookupLog
    rw [List.find?_append]
    have h1 : ([(d, v)].find? (fun p => p.1 == d') = none) := by
      simp [List.find?, beq_false_of_ne (fun h => hne h.symm)]
    cases hf : logs.find? (fun p => p.1 == d') with
    | none => simp [h1]
    | some p => simp

/-- Appending a pair with a different key does not change a lookup. -/
theorem lookupLog_append_ne (logs : PyDict α) (d d' : String) (v : α)
    (hne : d' ≠ d) : lookupLog (logs ++ [(d, v)]) d' = lookupLog logs d' := by
  unfold lookupLog
  rw [List.find?_append]
  have h1 : ([(d, v)].find? (fun p => p.1 == d') = none) := by
    simp [List.find?, beq_false_of_ne (fun h => hne h.symm)]
  cases hf : logs.find? (fun p => p.1 == d') with
  | none => simp [h1]
  | some p => simp

/-- Looking up a key just appended to a dict that lacked it. -/
theorem lookupLog_append_self (logs : PyDict α) (d : String) (v : α)
    (hnone : lookupLog logs d = none) :
    lookupLog (logs ++ [(d, v)]) d = some v := by
  unfold lookupLog at hnone ⊢
  rw [List.find?_append]
  cases hf : logs.find? (fun p => p.1 == d) with
  | none => simp [List.find?]
  | some p => rw [hf] at hnone; simp at hnone

end DictLemmas

/-! ### Merge-import lemmas -/

/-- Dates not mentioned in the incoming payload are untouched by the merge. -/
theorem mergeImport_lookup_not_mem (inc : PyDict (List LogEntry)) :
    ∀ (ex : Logs) (d : String), d ∉ inc.map (fun p => p.1) →
      lookupLog (mergeImport ex inc) d = lookupLog ex d := by
  induction inc with
  | nil => intro ex d _; rfl
  | cons p rest ih =>
    intro ex d hd
    have hne : d ≠ p.1 := by
      intro h
      exact hd (by simp [h])
    have hrest : d ∉ rest.map (fun q => q.1) := by
      intro h
      exact hd (by simp [h])
    cases hl : lookupLog ex p.1 with
    | some entries =>
      have step : mergeImport ex (p :: rest) =
          mergeImport (setLog ex p.1 (entries ++ p.2)) rest := by
        unfold mergeImport
        rw [List.foldl_cons, hl]
      rw [step, ih _ d hrest, lookupLog_set_ne _ _ _ _ hne]
    | none =>
      have step : mergeImport ex (p :: rest) = mergeImport (ex ++ [p]) rest := by
        unfold mergeImport
        rw [List.foldl_cons, hl]
      rw [step, ih _ d hrest]
      cases p with
      | mk d1 v1 => exact lookupLog_append_ne _ _ _ _ hne
    
/-- Behaviour of the merge at a date carried by the incoming payload: the
incoming entries end up appended after whatever the store already holds. -/
theorem mergeImport_lookup_of_mem (inc : PyDict (List LogEntry)) :
    ∀ (ex : Logs) (d : String) (es : List LogEntry),
      (inc.map (fun p => p.1)).Nodup → (d, es) ∈ inc →
      lookupLog (mergeImport ex inc) d =
        some ((lookupLog ex d).getD [] ++ es) := by
  induction inc with
  | nil => intro ex d es _ hmem; cases hmem
  | cons p rest ih =>
    intro ex d es hnodup hmem
    have hnodup' : (rest.map (fun q => q.1)).Nodup := by
      simpa using hnodup.of_cons
    cases hmem with
    | head =>
      have hd : d ∉ rest.map (fun q => q.1) := by
        have h2 := hnodup
        simp only [List.map_cons, List.nodup_cons] at h2
        exact h2.1
      cases hl : lookupLog ex d with
      | some entries =>
        have step : mergeImport ex ((d, es) :: rest) =
            mergeImport (setLog ex d (entries ++ es)) rest := by
          unfold mergeImport
          rw [List.foldl_cons, hl]
        rw [step, mergeImport_lookup_not_mem rest _ d hd, lookupLog_set_self]
        rfl
      | none =>
        have step : mergeImport ex ((d, es) :: rest) =
            mergeImport (ex ++ [(d, es)]) rest := by
          unfold mergeImport
          rw [List.foldl_cons, hl]
        rw [step, mergeImport_lookup_not_mem rest _ d hd,
          lookupLog_append_self _ _ _ hl]
        rfl
    | tail _ hmem' =>
      have hne : d ≠ p.1 := by
        intro h
        have h1 : p.1 ∈ rest.map (fun q => q.1) :=
          List.mem_map.mpr ⟨(d, es), hmem', by rw [h]⟩
        have h2 := hnodup
        simp only [List.map_cons, List.nodup_cons] at h2
        exact h2.1 h1
      cases hl : lookupLog ex p.1 with
      | some entries =>
        have step : mergeImport ex (p :: rest) =
            mergeImport (setLog ex p.1 (entries ++ p.2)) rest := by
          unfold mergeImport
          rw [List.foldl_cons, hl]
        rw [step, ih _ d es hnodup' hmem', lookupLog_set_ne _ _ _ _ hne]
      | none =>
        have step : mergeImport ex (p :: rest) = mergeImport (ex ++ [p]) rest := by
          unfold mergeImport
          rw [List.foldl_cons, hl]
        rw [step, ih _ d es hnodup' hmem']
        cases p with
        | mk d1 v1 => rw [lookupLog_append_ne _ _ _ _ hne]

/-! ### Search-tier lemmas -/

/-- The exact-match filter of tier 1 (data_handler.py line 93). -/
def exactMatchesOf (query : String) (food_db : List FoodRecord) :
    List FoodRecord :=
  food_db.filter (fun r => pyLower r.foodName == pyStrip (pyLower query))

/-- The surviving tier-2 candidates (data_handler.py lines 103-111):
the `limit` best token-sort matches that score at least 60. -/
def tier2Matches (ts : String → String → ℕ) (query : String)
    (food_db : List FoodRecord) (limit : ℕ) : List (String × ℕ) :=
  (extractFW ts (pyStrip (pyLower query)) (food_db.map (fun r => r.foodName))
    limit).filter (fun m => 60 ≤ m.2)

/-- The surviving tier-3 candidates (data_handler.py lines 136-144):
the `limit` best partial-ratio matches that score at least 75. -/
def tier3Matches (pr : String → String → ℕ) (query : String)
    (food_db : List FoodRecord) (limit : ℕ) : List (String × ℕ) :=
  (extractFW pr (pyStrip (pyLower query)) (food_db.map (fun r => r.foodName))
    limit).filter (fun m => 75 ≤ m.2)

/-- Every pair produced by `extractFW` is a choice tagged with its score. -/
theorem extractFW_mem (scorer : String → String → ℕ) (query : String)
    (choices : List String) (limit : ℕ) (m : String × ℕ)
    (hm : m ∈ extractFW scorer query choices limit) :
    m.1 ∈ choices ∧ m.2 = scorer query m.1 := by
  unfold extractFW at hm
  have hm2 : m ∈ List.insertionSort scoreGE
      (choices.map (fun c => (c, scorer query c))) :=
    List.take_subset _ _ hm
  have hm3 : m ∈ choices.map (fun c => (c, scorer query c)) :=
    (List.mem_insertionSort scoreGE).mp hm2
  obtain ⟨c, hc, hcm⟩ := List.mem_map.mp hm3
  subst hcm
  exact ⟨hc, rfl⟩

/-- `extractFW` keeps at most `limit` candidates. -/
theorem extractFW_length (scorer : String → String → ℕ) (query : String)
    (choices : List String) (limit : ℕ) :
    (extractFW scorer query choices limit).length ≤ limit :=
  List.length_take_le _ _

/-- `extractFW` preserves freedom from duplicate choice names. -/
theorem extractFW_nodup (scorer : String → String → ℕ) (query : String)
    (choices : List String) (limit : ℕ) (hnodup : choices.Nodup) :
    ((extractFW scorer query choices limit).map (fun m => m.1)).Nodup := by
  have hperm : (List.insertionSort scoreGE
      (choices.map (fun c => (c, scorer query c)))).Perm
      (choices.map (fun c => (c, scorer query c))) :=
    List.perm_insertionSort _ _
  have hnodup2 : ((choices.map (fun c => (c, scorer query c))).map
      (fun m => m.1)).Nodup := by
    rw [List.map_map]
    have hid : ((fun m : String × ℕ => m.1) ∘ fun c => (c, scorer query c)) =
        id := rfl
    rw [hid, List.map_id]
    exact hnodup
  have hnodup3 : ((List.insertionSort scoreGE
      (choices.map (fun c => (c, scorer query c)))).map
      (fun m : String × ℕ => m.1)).Nodup :=
    (hperm.map (fun m : String × ℕ => m.1)).symm.nodup hnodup2
  exact ((List.take_sublist _ _).map (fun m : String × ℕ => m.1)).nodup hnodup3

/-- Finding by key succeeds on any list that carries the key. -/
theorem find?_of_mem_map_fst {β : Type} (l : List (String × β)) (x : String)
    (hx : x ∈ l.map (fun m => m.1)) :
    ∃ m, l.find? (fun p => p.1 == x) = some m ∧ m.1 = x ∧ m ∈ l := by
  induction l with
  | nil => simp at hx
  | cons p ps ih =>
    by_cases hp : p.1 = x
    · refine ⟨p, ?_, hp, List.mem_cons_self _ _⟩
      simp [List.find?, beq_iff_eq.mpr hp]
    · have hx' : x ∈ ps.map (fun m => m.1) := by
        rcases List.mem_map.mp hx with ⟨q, hq, hqx⟩
        cases hq with
        | head => exact absurd hqx hp
        | tail _ hq' => exact List.mem_map.mpr ⟨q, hq', hqx⟩
      obtain ⟨m, hfind, hmx, hmem⟩ := ih hx'
      refine ⟨m, ?_, hmx, List.mem_cons_of_mem _ hmem⟩
      simp [List.find?, beq_false_of_ne hp, hfind]

/-- The score attached to a catalog row inside `fuzzyTier` is the score its
name carries in the good-match list, whenever every good match carries
`f` of its name. -/
theorem fuzzyTier_score_eq {f : String → ℕ} (good : List (String × ℕ))
    (hform : ∀ m ∈ good, m.2 = f m.1) (n : String)
    (hn : n ∈ good.map (fun m => m.1)) :
    ((good.find? (fun m => m.1 == n)).map (fun m => m.2)).getD 0 = f n := by
  obtain ⟨m, hfind, hmx, hmem⟩ := find?_of_mem_map_fst good n hn
  rw [hfind]
  simp [hform m hmem, hmx]

/-- Unfolding of `fuzzyTier` used by the lemmas below. -/
theorem fuzzyTier_def (food_db : List FoodRecord) (good : List (String × ℕ)) :
    fuzzyTier food_db good =
      (pandasSortDesc ((food_db.filter (fun r =>
          (good.map (fun m => m.1)).contains r.foodName)).map
        (fun r =>
          (r, ((good.find? (fun m => m.1 == r.foodName)).map
            (fun m => m.2)).getD 0)))).map (fun p => p.1) := rfl

/-- `fuzzyTier` is a permutation of the name-filtered catalog. -/
theorem fuzzyTier_perm_filter (food_db : List FoodRecord)
    (good : List (String × ℕ)) :
    (fuzzyTier food_db good).Perm (food_db.filter (fun r =>
      (good.map (fun m => m.1)).contains r.foodName)) := by
  rw [fuzzyTier_def]
  have hperm : (pandasSortDesc ((food_db.filter (fun r =>
      (good.map (fun m => m.1)).contains r.foodName)).map
        (fun r =>
          (r, ((good.find? (fun m => m.1 == r.foodName)).map
            (fun m => m.2)).getD 0)))).Perm
      ((food_db.filter (fun r =>
      (good.map (fun m => m.1)).contains r.foodName)).map
        (fun r =>
          (r, ((good.find? (fun m => m.1 == r.foodName)).map
            (fun m => m.2)).getD 0))) :=
    (List.reverse_perm _).trans (List.perm_insertionSort _ _)
  have h2 := hperm.map (fun p : FoodRecord × ℕ => p.1)
  rw [List.map_map] at h2
  have hid : ((fun p : FoodRecord × ℕ => p.1) ∘ fun r =>
      (r, ((good.find? (fun m => m.1 == r.foodName)).map
        (fun m => m.2)).getD 0)) = id := rfl
  rw [hid, List.map_id] at h2
  exact h2

/-- Every record returned by `fuzzyTier` carries a name from the good-match
list, and (given that good matches carry `f` of their names) scores at least
the threshold that the good matches satisfy. -/
theorem fuzzyTier_mem_name (food_db : List FoodRecord)
    (good : List (String × ℕ)) (r : FoodRecord)
    (hr : r ∈ fuzzyTier food_db good) :
    r ∈ food_db ∧ r.foodName ∈ good.map (fun m => m.1) := by
  have hr2 := (fuzzyTier_perm_filter food_db good).mem_iff.mp hr
  have hr3 := List.mem_filter.mp hr2
  refine ⟨hr3.1, ?_⟩
  exact List.elem_iff.mp hr3.2

/-- Sortedness of the `fuzzyTier` output: scores are weakly decreasing along
the returned records, where the score of a record is `f` of its name. -/
theorem fuzzyTier_sorted {f : String → ℕ} (food_db : List FoodRecord)
    (good : List (String × ℕ)) (hform : ∀ m ∈ good, m.2 = f m.1) :
    (fuzzyTier food_db good).Sorted
      (fun a b => f b.foodName ≤ f a.foodName) := by
  rw [fuzzyTier_def]
  set result := food_db.filter (fun r =>
    (good.map (fun m => m.1)).contains r.foodName) with hresult
  set scored := result.map (fun r =>
    (r, ((good.find? (fun m => m.1 == r.foodName)).map
      (fun m => m.2)).getD 0)) with hscored
  have hsorted : (List.insertionSort scoreLE scored).Sorted scoreLE :=
    List.sorted_insertionSort scoreLE scored
  have hrev : (pandasSortDesc scored).Pairwise
      (fun p q : FoodRecord × ℕ => q.2 ≤ p.2) := by
    unfold pandasSortDesc
    rw [List.pairwise_reverse]
    exact hsorted
  have hmemval : ∀ p ∈ pandasSortDesc scored, p.2 = f p.1.foodName := by
    intro p hp
    have hps : p ∈ scored := by
      have : (pandasSortDesc scored).Perm scored :=
        (List.reverse_perm _).trans (List.perm_insertionSort _ _)
      exact this.mem_iff.mp hp
    obtain ⟨r, hr, hrp⟩ := List.mem_map.mp hps
    have hname : r.foodName ∈ good.map (fun m => m.1) :=
      List.elem_iff.mp (List.mem_filter.mp hr).2
    rw [← hrp]
    exact fuzzyTier_score_eq good hform r.foodName hname
  rw [List.Sorted, List.pairwise_map]
  refine hrev.imp_of_mem ?_
  intro p q hp hq hle
  rw [← hmemval p hp, ← hmemval q hq]
  exact hle

/-- The names returned by `fuzzyTier` are exactly the good-match names, as a
permutation, provided catalog names and good-match names are duplicate-free
and every good match names a catalog row. -/
theorem fuzzyTier_name_perm (food_db : List FoodRecord)
    (good : List (String × ℕ))
    (hnodup : (food_db.map (fun r => r.foodName)).Nodup)
    (hgnodup : (good.map (fun m => m.1)).Nodup)
    (hsub : ∀ n ∈ good.map (fun m => m.1),
      n ∈ food_db.map (fun r => r.foodName)) :
    ((fuzzyTier food_db good).map (fun r => r.foodName)).Perm
      (good.map (fun m => m.1)) := by
  have hA := (fuzzyTier_perm_filter food_db good).map (fun r => r.foodName)
  refine hA.trans ?_
  set result := food_db.filter (fun r =>
    (good.map (fun m => m.1)).contains r.foodName) with hresult
  have hrnodup : (result.map (fun r => r.foodName)).Nodup :=
    ((List.filter_sublist food_db).map (fun r => r.foodName)).nodup hnodup
  rw [List.perm_ext_iff_of_nodup hrnodup hgnodup]
  intro n
  constructor
  · intro hn
    obtain ⟨r, hr, hrn⟩ := List.mem_map.mp hn
    have := (List.mem_filter.mp hr).2
    rw [hrn] at this
    exact List.elem_iff.mp this
  · intro hn
    obtain ⟨r, hr, hrn⟩ := List.mem_map.mp (hsub n hn)
    refine List.mem_map.mpr ⟨r, List.mem_filter.mpr ⟨hr, ?_⟩, hrn⟩
    rw [hrn]
    exact List.elem_iff.mpr hn

/-- Unfolding of `search_foods` through the named tier pieces. -/
theorem search_foods_def (ts pr : String → String → ℕ) (query : String)
    (food_db : List FoodRecord) (limit : ℕ) :
    search_foods ts pr query food_db limit =
      if (pyStrip query).data.length < 2 then []
      else if ¬(exactMatchesOf query food_db).isEmpty then
        exactMatchesOf query food_db
      else if ¬(tier2Matches ts query food_db limit).isEmpty then
        fuzzyTier food_db (tier2Matches ts query food_db limit)
      else if ¬(tier3Matches pr query food_db limit).isEmpty then
        fuzzyTier food_db (tier3Matches pr query food_db limit)
      else [] := rfl

/-- Tier-1 branch: any exact match short-circuits the fuzzy tiers. -/
theorem search_foods_exact (ts pr : String → String → ℕ) (query : String)
    (food_db : List FoodRecord) (limit : ℕ)
    (hlen : 2 ≤ (pyStrip query).data.length)
    (hex : exactMatchesOf query food_db ≠ []) :
    search_foods ts pr query food_db limit = exactMatchesOf query food_db := by
  rw [search_foods_def, if_neg (by omega), if_pos (by simp [List.isEmpty_iff, hex])]

/-- Tier-2 branch: no exact match and a surviving token-sort candidate. -/
theorem search_foods_tier2 (ts pr : String → String → ℕ) (query : String)
    (food_db : List FoodRecord) (limit : ℕ)
    (hlen : 2 ≤ (pyStrip query).data.length)
    (hex : exactMatchesOf query food_db = [])
    (hgood : tier2Matches ts query food_db limit ≠ []) :
    search_foods ts pr query food_db limit =
      fuzzyTier food_db (tier2Matches ts query food_db limit) := by
  rw [search_foods_def, if_neg (by omega),
    if_neg (by simp [List.isEmpty_iff, hex]),
    if_pos (by simp [List.isEmpty_iff, hgood])]

/-- Tier-3 branch: both earlier tiers empty, a surviving partial candidate. -/
theorem search_foods_tier3 (ts pr : String → String → ℕ) (query : String)
    (food_db : List FoodRecord) (limit : ℕ)
    (hlen : 2 ≤ (pyStrip query).data.length)
    (hex : exactMatchesOf query food_db = [])
    (hgood : tier2Matches ts query food_db limit = [])
    (hp : tier3Matches pr query food_db limit ≠ []) :
    search_foods ts pr query food_db limit =
      fuzzyTier food_db (tier3Matches pr query food_db limit) := by
  rw [search_foods_def, if_neg (by omega),
    if_neg (by simp [List.isEmpty_iff, hex]),
    if_neg (by simp [List.isEmpty_iff, hgood]),
    if_pos (by simp [List.isEmpty_iff, hp])]

/-- Fall-through branch: no tier produced anything. -/
theorem search_foods_nil (ts pr : String → String → ℕ) (query : String)
    (food_db : List FoodRecord) (limit : ℕ)
    (hlen : 2 ≤ (pyStrip query).data.length)
    (hex : exactMatchesOf query food_db = [])
    (hgood : tier2Matches ts query food_db limit = [])
    (hp : tier3Matches pr query food_db limit = []) :
    search_foods ts pr query food_db limit = [] := by
  rw [search_foods_def, if_neg (by omega),
    if_neg (by simp [List.isEmpty_iff, hex]),
    if_neg (by simp [List.isEmpty_iff, hgood]),
    if_neg (by simp [List.isEmpty_iff, hp])]

/-- Facts about the surviving candidates of a fuzzy tier with threshold `t`:
each is a catalog name tagged with its score, scores meet the threshold, the
name list is duplicate-free when catalog names are, and at most `limit`
candidates survive. -/
theorem tierMatches_facts (scorer : String → String → ℕ) (q : String)
    (choices : List String) (limit t : ℕ) :
    (∀ m ∈ (extractFW scorer q choices limit).filter (fun m => t ≤ m.2),
        m.1 ∈ choices ∧ m.2 = scorer q m.1 ∧ t ≤ m.2) ∧
      (choices.Nodup →
        (((extractFW scorer q choices limit).filter
          (fun m => t ≤ m.2)).map (fun m => m.1)).Nodup) ∧
      ((extractFW scorer q choices limit).filter
        (fun m => t ≤ m.2)).length ≤ limit := by
  refine ⟨?_, ?_, ?_⟩
  · intro m hm
    have hm1 := List.mem_filter.mp hm
    have hform := extractFW_mem scorer q choices limit m hm1.1
    exact ⟨hform.1, hform.2, by simpa using hm1.2⟩
  · intro hnodup
    exact ((List.filter_sublist _).map (fun m : String × ℕ => m.1)).nodup
      (extractFW_nodup scorer q choices limit hnodup)
  · exact (List.length_filter_le _ _).trans (extractFW_length _ _ _ _)

/-- The combined behaviour of a fuzzy tier on surviving candidates `good`
scoring `f` on names: the output names are a permutation of the good names,
the output is sorted by weakly decreasing score, every output scores at least
the threshold, and the output length equals the number of good candidates. -/
theorem fuzzyTier_props {f : String → ℕ} (food_db : List FoodRecord)
    (good : List (String × ℕ)) (t : ℕ)
    (hnodup : (food_db.map (fun r => r.foodName)).Nodup)
    (hgnodup : (good.map (fun m => m.1)).Nodup)
    (hsub : ∀ n ∈ good.map (fun m => m.1),
      n ∈ food_db.map (fun r => r.foodName))
    (hform : ∀ m ∈ good, m.2 = f m.1)
    (hthresh : ∀ m ∈ good, t ≤ m.2) :
    ((fuzzyTier food_db good).map (fun r => r.foodName)).Perm
        (good.map (fun m => m.1)) ∧
      (fuzzyTier food_db good).Sorted
        (fun a b => f b.foodName ≤ f a.foodName) ∧
      (∀ r ∈ fuzzyTier food_db good, t ≤ f r.foodName) ∧
      (fuzzyTier food_db good).length = good.length := by
  have hperm := fuzzyTier_name_perm food_db good hnodup hgnodup hsub
  refine ⟨hperm, fuzzyTier_sorted food_db good hform, ?_, ?_⟩
  · intro r hr
    have hname := (fuzzyTier_mem_name food_db good r hr).2
    obtain ⟨m, hm, hmn⟩ := List.mem_map.mp hname
    have := hthresh m hm
    rw [hform m hm, hmn] at this
    exact this
  · have h1 := hperm.length_eq
    rw [List.length_map, List.length_map] at h1
    exact h1

/-! ### Remaining definitions used by the claim statements -/

/-- The LogEntry totals invariant: every total field equals the linear scaling
of its per-100 g snapshot by `weight_g / 100`, rounded the way the source
rounds it on materialization (`int()` truncation for calories, `round(x, 1)`
for the macros). -/
def totalsInvariant (e : LogEntry) : Prop :=
  e.total_calories = pyInt ((e.calories : ℚ) * (e.weight_g : ℚ) / 100) ∧
  e.total_protein = pyRound1 (e.protein * (e.weight_g : ℚ) / 100) ∧
  e.total_fat = pyRound1 (e.fat * (e.weight_g : ℚ) / 100) ∧
  e.total_carbs = pyRound1 (e.carbs * (e.weight_g : ℚ) / 100)

/-- Catalog fixture: a food whose name has a single character. -/
def cxOneChar : FoodRecord := ⟨"1", "a", 0, 0, 0, 0⟩

/-- Catalog fixture: name "apple xyz" (token-sort score 71 against "apple"). -/
def cxAppleXyz : FoodRecord := ⟨"1", "apple xyz", 0, 0, 0, 0⟩

/-- Catalog fixture: name "applex" (token-sort score 91 against "apple"). -/
def cxApplex : FoodRecord := ⟨"2", "applex", 0, 0, 0, 0⟩

/-- Catalog fixture: name "xapple" (token-sort score 91 against "apple"). -/
def cxXapple : FoodRecord := ⟨"3", "xapple", 0, 0, 0, 0⟩

/-- Catalog fixture: a second row with the duplicate name "applex". -/
def cxApplex2 : FoodRecord := ⟨"4", "applex", 0, 0, 0, 0⟩

/-- Catalog fixture: name "ab". -/
def cxAb : FoodRecord := ⟨"5", "ab", 0, 0, 0, 0⟩

/-- Catalog fixture: name "abxxxxxx" (partial score 100 against "ab"). -/
def cxAbx : FoodRecord := ⟨"6", "abxxxxxx", 0, 0, 0, 0⟩

/-- Catalog fixture: a second row with the duplicate name "abxxxxxx". -/
def cxAbx2 : FoodRecord := ⟨"7", "abxxxxxx", 0, 0, 0, 0⟩

/-- Catalog fixture: the food "Apple, raw" with 52 kcal per 100 g. -/
def cxAppleRaw : FoodRecord := ⟨"8", "Apple, raw", 52, 0, 0, 0⟩

/-- Catalog fixture: a 52 kcal-per-100 g food for the rounding claims. -/
def cxFood52 : FoodRecord := ⟨"9", "porridge", 52, 0, 0, 0⟩

/-- Log-entry fixture for the store claims. -/
def exEntry0 : LogEntry :=
  ⟨"10", "oats", 100, 380, 10, 5, 60, 380, 10, 5, 60, "08:00"⟩

/-- A second log-entry fixture for the store claims. -/
def exEntry1 : LogEntry :=
  ⟨"11", "milk", 200, 64, 3, 4, 5, 128, 6, 8, 10, "08:05"⟩

set_option maxRecDepth 100000

/-! ### Claim C9 — text normalizer -/

/-- C9: `normalize` lowercases its input and removes every character that is
not a word character or whitespace (conjunct 4 characterises the output
character list), returns the empty string on null/missing input (conjunct 1),
is idempotent (conjunct 2), and maps "Chicken, Breast!" to "chicken breast"
(conjunct 3). -/
theorem C9_normalize_idempotent :
    normalize_text none = "" ∧
    (∀ s : String,
      normalize_text (some (normalize_text (some s))) =
        normalize_text (some s)) ∧
    normalize_text (some "Chicken, Breast!") = "chicken breast" ∧
    (∀ s : String, (normalize_text (some s)).data =
      (s.data.map Char.toLower).filter
        (fun c => isWordChar c || isPySpace c)) := by
  refine ⟨rfl, ?_, by decide, fun s => rfl⟩
  intro s
  show ((((s.data.map Char.toLower).filter
      (fun c => isWordChar c || isPySpace c)).map Char.toLower).filter
      (fun c => isWordChar c || isPySpace c)).asString = _
  have hfix : (((s.data.map Char.toLower).filter
      (fun c => isWordChar c || isPySpace c)).map Char.toLower) =
      ((s.data.map Char.toLower).filter
        (fun c => isWordChar c || isPySpace c)) := by
    conv_rhs => rw [← List.map_id ((s.data.map Char.toLower).filter
      (fun c => isWordChar c || isPySpace c))]
    apply List.map_congr_left
    intro c hc
    have hc2 : c ∈ s.data.map Char.toLower := List.mem_of_mem_filter hc
    obtain ⟨c0, _, hc0⟩ := List.mem_map.mp hc2
    rw [← hc0]
    exact toLower_idem c0
  rw [hfix, List.filter_filter]
  congr 1
  simp only [Bool.and_self]

/-! ### Claim C4 — rounding on materialization -/

/-- C4 counterexample: a 52 kcal-per-100 g food logged at 155 g gets
`total_calories = int(52 * 1.55) = 80`, whereas nearest-integer rounding of
`52 * 155 / 100 = 80.6` is 81: the code truncates instead of rounding. -/
theorem C4_counterexample :
    (mkLogEntry cxFood52 155 "12:00").total_calories = 80 ∧
    round ((52 : ℚ) * 155 / 100) = 81 := by
  constructor
  · simp only [mkLogEntry, calculate_nutrition, cxFood52]
    rw [pyInt, if_neg (by norm_num)]
    norm_num
  · rw [round_eq]
    norm_num

/-- C4 (amended): the materialized entry's `total_calories` is the truncation
toward zero (`int()`) of `caloriesPer100g * mass / 100` — not its
nearest-integer rounding — and the three macro totals are the linear scalings
rounded to one decimal place; mass 137 of a 52 kcal-per-100 g food still
yields `total_calories = 71`. -/
theorem C4_materialization_totals (food : FoodRecord) (w : ℤ) (t : String) :
    (mkLogEntry food w t).total_calories =
      pyInt ((food.calories : ℚ) * (w : ℚ) / 100) ∧
    (mkLogEntry food w t).total_protein =
      pyRound1 (food.protein * (w : ℚ) / 100) ∧
    (mkLogEntry food w t).total_fat =
      pyRound1 (food.fat * (w : ℚ) / 100) ∧
    (mkLogEntry food w t).total_carbs =
      pyRound1 (food.carbs * (w : ℚ) / 100) ∧
    (mkLogEntry food w t).weight_g = w ∧
    (food.calories = 52 → w = 137 →
      (mkLogEntry food w t).total_calories = 71) := by
  have h1 : (mkLogEntry food w t).total_calories =
      pyInt ((food.calories : ℚ) * (w : ℚ) / 100) := by
    simp only [mkLogEntry, calculate_nutrition]
    exact congrArg pyInt (by ring)
  refine ⟨h1, ?_, ?_, ?_, rfl, ?_⟩
  · simp only [mkLogEntry, calculate_nutrition]
    exact congrArg pyRound1 (by ring)
  · simp only [mkLogEntry, calculate_nutrition]
    exact congrArg pyRound1 (by ring)
  · simp only [mkLogEntry, calculate_nutrition]
    exact congrArg pyRound1 (by ring)
  · intro hc hw
    rw [h1, hc, hw]
    rw [pyInt, if_neg (by norm_num)]
    norm_num

/-- C4 witness: the amended statement evaluated for the 52 kcal food at
137 g, with the hypotheses of the example conjunct discharged. -/
theorem C4_witness :
    cxFood52.calories = 52 ∧
    (mkLogEntry cxFood52 137 "12:00").total_calories = 71 :=
  ⟨rfl, (C4_materialization_totals cxFood52 137 "12:00").2.2.2.2.2 rfl rfl⟩

/-! ### Claim C5 — update recomputes all totals from the snapshot -/

/-- C5: the totals invariant holds for every freshly materialized entry and
for every entry whose mass was updated (both recompute all four totals from
the per-100 g snapshot); updating is insensitive to the previous mass
(conjunct 3: a second update gives the same entry as a single update, so no
field reflects the pre-update mass); and a successful `update_food_entry`
replaces exactly the indexed entry with the recomputed one. -/
theorem C5_update_atomic :
    (∀ (food : FoodRecord) (w : ℤ) (t : String),
      totalsInvariant (mkLogEntry food w t)) ∧
    (∀ (e : LogEntry) (w : ℤ), totalsInvariant (recalcEntry e w)) ∧
    (∀ (e : LogEntry) (w1 w2 : ℤ),
      recalcEntry (recalcEntry e w1) w2 = recalcEntry e w2) ∧
    (∀ (logs : Logs) (d : String) (i : ℕ) (w : ℤ) (es : List LogEntry)
      (e : LogEntry), lookupLog logs d = some es → es[i]? = some e →
      update_food_entry logs d i w =
        some (setLog logs d (es.set i (recalcEntry e w))) ∧
      lookupLog (setLog logs d (es.set i (recalcEntry e w))) d =
        some (es.set i (recalcEntry e w))) := by
  refine ⟨?_, ?_, ?_, ?_⟩
  · intro food w t
    refine ⟨?_, ?_, ?_, ?_⟩ <;>
      simp only [totalsInvariant, mkLogEntry, calculate_nutrition]
    · exact congrArg pyInt (by ring)
    · exact congrArg pyRound1 (by ring)
    · exact congrArg pyRound1 (by ring)
    · exact congrArg pyRound1 (by ring)
  · intro e w
    refine ⟨?_, ?_, ?_, ?_⟩ <;>
      simp only [totalsInvariant, recalcEntry, calculate_nutrition]
    · exact congrArg pyInt (by ring)
    · exact congrArg pyRound1 (by ring)
    · exact congrArg pyRound1 (by ring)
    · exact congrArg pyRound1 (by ring)
  · intro e w1 w2
    rfl
  · intro logs d i w es e hl he
    constructor
    · simp only [update_food_entry, hl, he]
    · exact lookupLog_set_self _ _ _

/-- C5 witness: the update theorem applied to a concrete one-date store. -/
theorem C5_witness :
    lookupLog [("2024-01-01", [exEntry0, exEntry1])] "2024-01-01" =
      some [exEntry0, exEntry1] ∧
    [exEntry0, exEntry1][1]? = some exEntry1 ∧
    update_food_entry [("2024-01-01", [exEntry0, exEntry1])] "2024-01-01" 1 50 =
      some (setLog [("2024-01-01", [exEntry0, exEntry1])] "2024-01-01"
        ([exEntry0, exEntry1].set 1 (recalcEntry exEntry1 50))) :=
  ⟨rfl, rfl,
    ((C5_update_atomic.2.2.2 [("2024-01-01", [exEntry0, exEntry1])]
      "2024-01-01" 1 50 [exEntry0, exEntry1] exEntry1 rfl rfl).1)⟩

/-! ### Claim C6 — merge-import appends without dedup -/

/-- C6: merged dates present in both stores hold the existing entries followed
by the incoming entries (length is the sum, no dedup or reordering), merging
the same payload twice appends the incoming entries twice (non-idempotent),
and dates only in the incoming payload are inserted wholesale. -/
theorem C6_merge_append (ex : Logs) (inc : PyDict (List LogEntry))
    (d : String) (es : List LogEntry)
    (hnodup : (inc.map (fun p => p.1)).Nodup) (hmem : (d, es) ∈ inc) :
    (∀ old, lookupLog ex d = some old →
      lookupLog (mergeImport ex inc) d = some (old ++ es) ∧
      (old ++ es).length = old.length + es.length ∧
      lookupLog (mergeImport (mergeImport ex inc) inc) d =
        some (old ++ es ++ es)) ∧
    (lookupLog ex d = none → lookupLog (mergeImport ex inc) d = some es) := by
  constructor
  · intro old hold
    have h1 := mergeImport_lookup_of_mem inc ex d es hnodup hmem
    rw [hold] at h1
    have h1' : lookupLog (mergeImport ex inc) d = some (old ++ es) := h1
    refine ⟨h1', List.length_append _ _, ?_⟩
    have h2 := mergeImport_lookup_of_mem inc (mergeImport ex inc) d es hnodup
      hmem
    rw [h1'] at h2
    exact h2
  · intro hnone
    have h1 := mergeImport_lookup_of_mem inc ex d es hnodup hmem
    rw [hnone] at h1
    exact h1

/-- C6 witness: a concrete merge of one shared date and one fresh date. -/
theorem C6_witness :
    ([("2024-01-01", [exEntry1]), ("2024-01-02", [exEntry0, exEntry1])].map
      (fun p => p.1)).Nodup ∧
    lookupLog [("2024-01-01", [exEntry0])] "2024-01-01" = some [exEntry0] ∧
    lookupLog (mergeImport [("2024-01-01", [exEntry0])]
        [("2024-01-01", [exEntry1]), ("2024-01-02", [exEntry0, exEntry1])])
      "2024-01-01" = some ([exEntry0] ++ [exEntry1]) ∧
    ([exEntry0] ++ [exEntry1] : List LogEntry).length = 1 + 1 ∧
    lookupLog (mergeImport (mergeImport [("2024-01-01", [exEntry0])]
        [("2024-01-01", [exEntry1]), ("2024-01-02", [exEntry0, exEntry1])])
        [("2024-01-01", [exEntry1]), ("2024-01-02", [exEntry0, exEntry1])])
      "2024-01-01" = some ([exEntry0] ++ [exEntry1] ++ [exEntry1]) := by
  have h := C6_merge_append [("2024-01-01", [exEntry0])]
    [("2024-01-01", [exEntry1]), ("2024-01-02", [exEntry0, exEntry1])]
    "2024-01-01" [exEntry1] (by decide) (List.Mem.head _)
  have h1 := (h.1 [exEntry0] rfl)
  exact ⟨by decide, rfl, h1.1, h1.2.1, h1.2.2⟩

/-! ### Claim C7 — import failure behaviour -/

/-- C7 counterexample, refuting the claim at two concrete inputs.  First, the
payload `{"2024-01-01": 5}` (a dict with a non-list value under a fresh date)
is not a date-to-list mapping, yet import succeeds, storing the bad value.
Second, the payload `{"d1": [entry], "d2": 5}` over a store holding `d1` and
`d2` fails as the claim requires, but the caller's store is left mutated: the
shallow-copied list under `d1` was extended before the `TypeError` hit
`d2`. -/
theorem C7_counterexample :
    (import_logs_from_uploaded_file
      (Payload.dict [("2024-01-01", JsonVal.bad)]) []).1 = true ∧
    (import_logs_from_uploaded_file
      (Payload.dict [("d1", JsonVal.list [exEntry1]), ("d2", JsonVal.bad)])
      [("d1", [exEntry0]), ("d2", [exEntry0])]).1 = false ∧
    (import_logs_from_uploaded_file
      (Payload.dict [("d1", JsonVal.list [exEntry1]), ("d2", JsonVal.bad)])
      [("d1", [exEntry0]), ("d2", [exEntry0])]).2.2 =
      [("d1", [exEntry0, exEntry1]), ("d2", [exEntry0])] ∧
    [("d1", [exEntry0, exEntry1]), ("d2", [exEntry0])] ≠
      ([("d1", [exEntry0]), ("d2", [exEntry0])] : Logs) := by
  refine ⟨rfl, rfl, rfl, ?_⟩
  intro h
  have h2 : ([exEntry0, exEntry1] : List LogEntry) = [exEntry0] := by
    have h3 := congrArg (fun l : Logs => l[0]?) h
    simp only [List.getElem?_cons_zero, Option.some.injEq, Prod.mk.injEq] at h3
    exact h3.2
  simp at h2

/-- C7 (amended): only for an import payload that is not a mapping (dict) at
the top level does import reliably fail with the InvalidFormat message and
return with the existing store completely unchanged.  (A dict payload with
non-list values may instead succeed — a bad value under a fresh date is
inserted wholesale — or fail only after earlier dates' lists have already
been extended through the shallow copy; see the counterexample.) -/
theorem C7_import_not_dict (ex : Logs) :
    import_logs_from_uploaded_file Payload.notDict ex =
      (false, toJ ex, ex) := rfl

/-! ### Claim C8 — remove shifts subsequent entries down -/

/-- C8: for a valid index, `remove` deletes exactly the indexed entry —
the list shrinks by one, entries before the index are unchanged and entries
after it shift left by one — and an out-of-range index or an absent date key
fails, leaving the store unchanged (`none`). -/
theorem C8_remove_shifts (logs : Logs) (d : String) (i : ℕ) :
    (∀ es, lookupLog logs d = some es →
      (i < es.length →
        remove_food_entry logs d i =
          some (setLog logs d (es.eraseIdx i)) ∧
        lookupLog (setLog logs d (es.eraseIdx i)) d =
          some (es.eraseIdx i) ∧
        (es.eraseIdx i).length + 1 = es.length ∧
        (∀ j, j < i → (es.eraseIdx i)[j]? = es[j]?) ∧
        (∀ j, i ≤ j → (es.eraseIdx i)[j]? = es[j + 1]?)) ∧
      (es.length ≤ i → remove_food_entry logs d i = none)) ∧
    (lookupLog logs d = none → remove_food_entry logs d i = none) := by
  constructor
  · intro es hl
    constructor
    · intro hi
      refine ⟨?_, lookupLog_set_self _ _ _, ?_, ?_, ?_⟩
      · simp only [remove_food_entry, hl, if_pos hi]
      · rw [List.length_eraseIdx, if_pos hi]
        omega
      · intro j hj
        rw [List.getElem?_eraseIdx, if_pos hj]
      · intro j hj
        rw [List.getElem?_eraseIdx, if_neg (by omega)]
    · intro hi
      simp only [remove_food_entry, hl]
      rw [if_neg (show ¬i < es.length from by omega)]
  · intro hnone
    simp only [remove_food_entry, hnone]

/-- C8 witness: removing index 0 from a concrete two-entry date, plus the
failure cases at an out-of-range index and an absent date. -/
theorem C8_witness :
    lookupLog [("2024-01-01", [exEntry0, exEntry1])] "2024-01-01" =
      some [exEntry0, exEntry1] ∧
    (0 : ℕ) < 2 ∧
    remove_food_entry [("2024-01-01", [exEntry0, exEntry1])] "2024-01-01" 0 =
      some (setLog [("2024-01-01", [exEntry0, exEntry1])] "2024-01-01"
        ([exEntry0, exEntry1].eraseIdx 0)) ∧
    remove_food_entry [("2024-01-01", [exEntry0, exEntry1])] "2024-01-01" 5 =
      none ∧
    remove_food_entry [("2024-01-01", [exEntry0, exEntry1])] "2024-02-01" 0 =
      none := by
  have h := C8_remove_shifts [("2024-01-01", [exEntry0, exEntry1])]
    "2024-01-01" 0
  have h5 := C8_remove_shifts [("2024-01-01", [exEntry0, exEntry1])]
    "2024-01-01" 5
  have habs := C8_remove_shifts [("2024-01-01", [exEntry0, exEntry1])]
    "2024-02-01" 0
  refine ⟨rfl, by omega, ?_, ?_, ?_⟩
  · exact ((h.1 [exEntry0, exEntry1] rfl).1 (by decide)).1
  · exact (h5.1 [exEntry0, exEntry1] rfl).2 (by decide)
  · exact habs.2 rfl

/-! ### Claim C10 — load keeps dates and silently drops invalid entries -/

/-- C10: loading a syntactically valid stored mapping keeps every date key in
order; each date's sequence becomes, in original order (a sublist), exactly
those raw entries carrying all four required fields; nothing is reported. -/
theorem C10_load_filters (logs : PyDict (List RawEntry)) :
    (load_food_logs logs).map (fun p => p.1) = logs.map (fun p => p.1) ∧
    (∀ d es, lookupLog logs d = some es →
      lookupLog (load_food_logs logs) d =
        some (es.filter validate_food_entry) ∧
      (es.filter validate_food_entry).Sublist es ∧
      (∀ e, e ∈ es.filter validate_food_entry ↔
        e ∈ es ∧ ∀ fld ∈ ["food_id", "food_name", "weight_g",
          "total_calories"], fld ∈ e)) := by
  constructor
  · unfold load_food_logs
    rw [List.map_map]
    rfl
  · intro d es hl
    refine ⟨?_, List.filter_sublist es, ?_⟩
    · unfold load_food_logs
      rw [lookupLog_map_key (fun p => p.2.filter validate_food_entry) logs d,
        hl]
      rfl
    · intro e
      rw [List.mem_filter]
      constructor
      · rintro ⟨he, hv⟩
        refine ⟨he, ?_⟩
        intro fld hfld
        have := (List.all_eq_true.mp hv) fld hfld
        exact List.elem_iff.mp this
      · rintro ⟨he, hv⟩
        refine ⟨he, ?_⟩
        rw [validate_food_entry, List.all_eq_true]
        intro fld hfld
        exact List.elem_iff.mpr (hv fld hfld)

/-- C10 witness: loading a concrete store with one valid and one invalid raw
entry keeps the date and drops exactly the invalid entry. -/
theorem C10_witness :
    lookupLog [("2024-01-01",
        [["food_id", "food_name", "weight_g", "total_calories", "extra"],
         ["food_id", "weight_g"]])] "2024-01-01" =
      some [["food_id", "food_name", "weight_g", "total_calories", "extra"],
        ["food_id", "weight_g"]] ∧
    lookupLog (load_food_logs [("2024-01-01",
        [["food_id", "food_name", "weight_g", "total_calories", "extra"],
         ["food_id", "weight_g"]])]) "2024-01-01" =
      some ([["food_id", "food_name", "weight_g", "total_calories", "extra"],
        ["food_id", "weight_g"]].filter validate_food_entry) ∧
    [["food_id", "food_name", "weight_g", "total_calories", "extra"],
        ["food_id", "weight_g"]].filter validate_food_entry =
      [["food_id", "food_name", "weight_g", "total_calories", "extra"]] := by
  have h := (C10_load_filters [("2024-01-01",
    [["food_id", "food_name", "weight_g", "total_calories", "extra"],
     ["food_id", "weight_g"]])]).2 "2024-01-01"
    [["food_id", "food_name", "weight_g", "total_calories", "extra"],
     ["food_id", "weight_g"]] rfl
  exact ⟨rfl, h.1, by decide⟩

/-! ### Claim C1 — exact-match short circuit -/

/-- C1 counterexample: the catalog holds a food literally named "a"; the
query "a" trim-lowercases to exactly that name (conjunct 2, so the claim
demands the exact-match record back), yet search returns empty because the
length guard rejects the query before tier 1 runs. -/
theorem C1_counterexample :
    search_foods tokenSortScore partScore "a" [cxOneChar] 20 = [] ∧
    pyStrip (pyLower "a") = pyLower cxOneChar.foodName ∧
    exactMatchesOf "a" [cxOneChar] = [cxOneChar] ∧
    ([] : List FoodRecord) ≠ [cxOneChar] := by
  refine ⟨rfl, rfl, rfl, by simp⟩

/-- C1 (amended): for every query whose trimmed form has length at least two
(shorter queries are rejected before any tier runs) and whose trimmed,
lowercased form equals the lowercased name of at least one catalog food,
search returns exactly the set of exact-match records in catalog order
(conjunct 2 characterises membership), regardless of the two fuzzy scorers. -/
theorem C1_exact_short_circuit (ts pr : String → String → ℕ) (query : String)
    (food_db : List FoodRecord) (limit : ℕ)
    (hlen : 2 ≤ (pyStrip query).data.length)
    (hex : exactMatchesOf query food_db ≠ []) :
    search_foods ts pr query food_db limit = exactMatchesOf query food_db ∧
    ∀ r : FoodRecord, r ∈ search_foods ts pr query food_db limit ↔
      r ∈ food_db ∧ pyLower r.foodName = pyStrip (pyLower query) := by
  have h := search_foods_exact ts pr query food_db limit hlen hex
  refine ⟨h, ?_⟩
  intro r
  rw [h]
  unfold exactMatchesOf
  rw [List.mem_filter]
  constructor
  · rintro ⟨h1, h2⟩
    exact ⟨h1, by simpa using h2⟩
  · rintro ⟨h1, h2⟩
    exact ⟨h1, by simpa using h2⟩

/-- C1 witness: searching " APPLE, Raw " over a catalog holding "Apple, raw"
(plus a fuzzy near-miss) returns exactly the exact match. -/
theorem C1_witness :
    2 ≤ (pyStrip " APPLE, Raw ").data.length ∧
    exactMatchesOf " APPLE, Raw " [cxAppleRaw, cxApplex] = [cxAppleRaw] ∧
    search_foods tokenSortScore partScore " APPLE, Raw "
      [cxAppleRaw, cxApplex] 20 =
      exactMatchesOf " APPLE, Raw " [cxAppleRaw, cxApplex] :=
  ⟨by decide, rfl,
    (C1_exact_short_circuit tokenSortScore partScore " APPLE, Raw "
      [cxAppleRaw, cxApplex] 20 (by decide) (by decide)).1⟩

/-! ### Claim C2 — tier-2 token-sort ranking -/

/-- C2 counterexample, refuting the claim at four concrete inputs.
(1) With `limit = 1`, "apple xyz" token-sort-scores 71 ≥ 60 against "apple"
yet is not returned (`process.extract` truncates to `limit` before the
threshold filter, so the result is not the full ≥ 60 set).
(2) "applex" and "xapple" tie at score 91, and the result comes out in
reverse catalog order, not catalog order (pandas descending sort reverses the
stably ascending argsort).
(3) A query of trimmed length < 2 returns empty even though a name scores
≥ 60 and no exact match exists.
(4) Two catalog rows sharing the name "applex" are both returned although
`limit = 1`, so the result is not capped by `limit`. -/
theorem C2_counterexample :
    (search_foods tokenSortScore partScore "apple" [cxAppleXyz, cxApplex] 1 =
        [cxApplex] ∧
      60 ≤ tokenSortScore (pyStrip (pyLower "apple")) cxAppleXyz.foodName ∧
      exactMatchesOf "apple" [cxAppleXyz, cxApplex] = []) ∧
    (search_foods tokenSortScore partScore "apple" [cxApplex, cxXapple] 20 =
        [cxXapple, cxApplex] ∧
      tokenSortScore (pyStrip (pyLower "apple")) cxApplex.foodName =
        tokenSortScore (pyStrip (pyLower "apple")) cxXapple.foodName ∧
      cxApplex ≠ cxXapple ∧
      exactMatchesOf "apple" [cxApplex, cxXapple] = []) ∧
    (search_foods tokenSortScore partScore "a" [cxAb] 20 = [] ∧
      60 ≤ tokenSortScore (pyStrip (pyLower "a")) cxAb.foodName ∧
      exactMatchesOf "a" [cxAb] = []) ∧
    (search_foods tokenSortScore partScore "apple" [cxApplex, cxApplex2] 1 =
        [cxApplex2, cxApplex] ∧
      1 < (search_foods tokenSortScore partScore "apple"
        [cxApplex, cxApplex2] 1).length ∧
      exactMatchesOf "apple" [cxApplex, cxApplex2] = []) := by
  exact ⟨⟨rfl, by decide, rfl⟩, ⟨rfl, by decide, by decide, rfl⟩,
    ⟨rfl, by decide, rfl⟩, ⟨rfl, by decide, rfl⟩⟩

/-- C2 (amended): for every query of trimmed length at least two with no
exact match, over a catalog with pairwise-distinct names, when any of the
`limit` best token-sort candidates scores ≥ 60 the search result consists of
exactly the records bearing those candidates' names (as a permutation),
sorted by weakly decreasing token-sort score (the order among equal scores is
implementation-defined by the unstable pandas sort), every returned record
scores at least 60, and at most `limit` records are returned. -/
theorem C2_tier2_ranking (ts pr : String → String → ℕ) (query : String)
    (food_db : List FoodRecord) (limit : ℕ)
    (hnodup : (food_db.map (fun r => r.foodName)).Nodup)
    (hlen : 2 ≤ (pyStrip query).data.length)
    (hex : exactMatchesOf query food_db = [])
    (hgood : tier2Matches ts query food_db limit ≠ []) :
    ((search_foods ts pr query food_db limit).map (fun r => r.foodName)).Perm
      ((tier2Matches ts query food_db limit).map (fun m => m.1)) ∧
    (search_foods ts pr query food_db limit).Sorted (fun a b =>
      ts (pyStrip (pyLower query)) b.foodName ≤
        ts (pyStrip (pyLower query)) a.foodName) ∧
    (∀ r ∈ search_foods ts pr query food_db limit,
      60 ≤ ts (pyStrip (pyLower query)) r.foodName) ∧
    (search_foods ts pr query food_db limit).length ≤ limit := by
  have hres := search_foods_tier2 ts pr query food_db limit hlen hex hgood
  have hfacts := tierMatches_facts ts (pyStrip (pyLower query))
    (food_db.map (fun r => r.foodName)) limit 60
  have hsub : ∀ n ∈ (tier2Matches ts query food_db limit).map
      (fun m => m.1), n ∈ food_db.map (fun r => r.foodName) := by
    intro n hn
    obtain ⟨m, hm, hmn⟩ := List.mem_map.mp hn
    rw [← hmn]
    exact (hfacts.1 m hm).1
  have hprops := fuzzyTier_props
    (f := fun n => ts (pyStrip (pyLower query)) n) food_db
    (tier2Matches ts query food_db limit) 60 hnodup (hfacts.2.1 hnodup) hsub
    (fun m hm => (hfacts.1 m hm).2.1) (fun m hm => (hfacts.1 m hm).2.2)
  rw [hres]
  refine ⟨hprops.1, hprops.2.1, hprops.2.2.1, ?_⟩
  rw [hprops.2.2.2]
  exact hfacts.2.2

/-- C2 witness: the amended tier-2 statement at the query "apple" over the
one-food catalog ["applex"], whose token-sort score is 91. -/
theorem C2_witness :
    ([cxApplex].map (fun r => r.foodName)).Nodup ∧
    2 ≤ (pyStrip "apple").data.length ∧
    exactMatchesOf "apple" [cxApplex] = [] ∧
    tier2Matches tokenSortScore "apple" [cxApplex] 20 ≠ [] ∧
    ((search_foods tokenSortScore partScore "apple" [cxApplex] 20).map
      (fun r => r.foodName)).Perm
      ((tier2Matches tokenSortScore "apple" [cxApplex] 20).map
        (fun m => m.1)) :=
  ⟨by decide, by decide, rfl, by decide,
    (C2_tier2_ranking tokenSortScore partScore "apple" [cxApplex] 20
      (by decide) (by decide) rfl (by decide)).1⟩

/-! ### Claim C3 — tier-3 fallback -/

/-- C3 counterexample, refuting the claim at two concrete inputs.
(1) With `limit = 1` and two catalog rows sharing the name "abxxxxxx"
(partial score 100 against "ab", token-sort score 40), tier 3 returns two
records, exceeding `limit`.
(2) The one-character query "a" returns empty although tier 2 is empty, no
exact match exists, and "abxxxxxx" partial-scores 100 ≥ 75 — so tier 3 is
not evaluated for short queries, against the claim's unconditional reading. -/
theorem C3_counterexample :
    (search_foods tokenSortScore partScore "ab" [cxAbx, cxAbx2] 1 =
        [cxAbx2, cxAbx] ∧
      1 < (search_foods tokenSortScore partScore "ab" [cxAbx, cxAbx2]
        1).length ∧
      exactMatchesOf "ab" [cxAbx, cxAbx2] = [] ∧
      tier2Matches tokenSortScore "ab" [cxAbx, cxAbx2] 1 = []) ∧
    (search_foods tokenSortScore partScore "a" [cxAbx] 20 = [] ∧
      75 ≤ partScore (pyStrip (pyLower "a")) cxAbx.foodName ∧
      tokenSortScore (pyStrip (pyLower "a")) cxAbx.foodName < 60 ∧
      exactMatchesOf "a" [cxAbx] = []) := by
  exact ⟨⟨rfl, by decide, rfl, by decide⟩, ⟨rfl, by decide, by decide, rfl⟩⟩

/-- C3 (amended): for every query of trimmed length at least two with no
exact match: the tier-3 result cannot depend on the partial scorer unless
tier 2 produced zero candidates scoring ≥ 60 among its `limit` best (conjunct
1: with a surviving tier-2 candidate the result is unchanged under any
replacement of the partial scorer); when tier 2 is empty, tier 3 keeps, among
the `limit` best partial-scoring names, those scoring ≥ 75 — returning, over
a catalog with pairwise-distinct names, exactly the records with those names
sorted by weakly decreasing partial score, at most `limit` of them — and when
tier 3 is also empty the search returns the empty result. -/
theorem C3_tier3_fallback (ts pr pr' : String → String → ℕ) (query : String)
    (food_db : List FoodRecord) (limit : ℕ)
    (hlen : 2 ≤ (pyStrip query).data.length)
    (hex : exactMatchesOf query food_db = []) :
    (tier2Matches ts query food_db limit ≠ [] →
      search_foods ts pr query food_db limit =
        search_foods ts pr' query food_db limit) ∧
    (tier2Matches ts query food_db limit = [] →
      (tier3Matches pr query food_db limit = [] →
        search_foods ts pr query food_db limit = []) ∧
      ((food_db.map (fun r => r.foodName)).Nodup →
        tier3Matches pr query food_db limit ≠ [] →
        ((search_foods ts pr query food_db limit).map
            (fun r => r.foodName)).Perm
          ((tier3Matches pr query food_db limit).map (fun m => m.1)) ∧
        (search_foods ts pr query food_db limit).Sorted (fun a b =>
          pr (pyStrip (pyLower query)) b.foodName ≤
            pr (pyStrip (pyLower query)) a.foodName) ∧
        (∀ r ∈ search_foods ts pr query food_db limit,
          75 ≤ pr (pyStrip (pyLower query)) r.foodName) ∧
        (search_foods ts pr query food_db limit).length ≤ limit)) := by
  constructor
  · intro hgood
    rw [search_foods_tier2 ts pr query food_db limit hlen hex hgood,
      search_foods_tier2 ts pr' query food_db limit hlen hex hgood]
  · intro hempty
    constructor
    · intro hp
      exact search_foods_nil ts pr query food_db limit hlen hex hempty hp
    · intro hnodup hp
      have hres := search_foods_tier3 ts pr query food_db limit hlen hex
        hempty hp
      have hfacts := tierMatches_facts pr (pyStrip (pyLower query))
        (food_db.map (fun r => r.foodName)) limit 75
      have hsub : ∀ n ∈ (tier3Matches pr query food_db limit).map
          (fun m => m.1), n ∈ food_db.map (fun r => r.foodName) := by
        intro n hn
        obtain ⟨m, hm, hmn⟩ := List.mem_map.mp hn
        rw [← hmn]
        exact (hfacts.1 m hm).1
      have hprops := fuzzyTier_props
        (f := fun n => pr (pyStrip (pyLower query)) n) food_db
        (tier3Matches pr query food_db limit) 75 hnodup
        (hfacts.2.1 hnodup) hsub (fun m hm => (hfacts.1 m hm).2.1)
        (fun m hm => (hfacts.1 m hm).2.2)
      rw [hres]
      refine ⟨hprops.1, hprops.2.1, hprops.2.2.1, ?_⟩
      rw [hprops.2.2.2]
      exact hfacts.2.2

/-- C3 witness: the amended tier-3 statement at the query "ab" over the
one-food catalog ["abxxxxxx"] (token-sort 40, so tier 2 is empty; partial
score 100, so tier 3 fires). -/
theorem C3_witness :
    2 ≤ (pyStrip "ab").data.length ∧
    exactMatchesOf "ab" [cxAbx] = [] ∧
    tier2Matches tokenSortScore "ab" [cxAbx] 20 = [] ∧
    tier3Matches partScore "ab" [cxAbx] 20 ≠ [] ∧
    ([cxAbx].map (fun r => r.foodName)).Nodup ∧
    ((search_foods tokenSortScore partScore "ab" [cxAbx] 20).map
      (fun r => r.foodName)).Perm
      ((tier3Matches partScore "ab" [cxAbx] 20).map (fun m => m.1)) :=
  ⟨by decide, rfl, by decide, by decide, by decide,
    (((C3_tier3_fallback tokenSortScore partScore partScore "ab" [cxAbx] 20
      (by decide) rfl).2 (by decide)).2 (by decide) (by decide)).1⟩
